import Mathlib

/-!
Verification of go-backend-template: pagination metadata, mail delivery, JSON helpers, background tasks

A shallow embedding of `internal/data/metadata.go`, `internal/mailer/mailer.go` and
`cmd/api/helpers.go`, with theorems about them.

* Go `int` is a mathematical integer wrapped to 64 bits after each operation.
* Calls into other packages are taken as they are seen from the code: the mail transport
  and the JSON decoder are state machines given as functions, `time.Sleep` is an event in
  a trace, Go errors are values of `GoError`, a panic is a separate outcome.
* Goroutines launched by `background` are steps of a process that may come in any order.

The definitions come first, the theorems after them.
-/

namespace GoBackend

/-- Smallest value of Go's `int` on a 64-bit platform. -/
def minInt : Int := -9223372036854775808

/-- Largest value of Go's `int` on a 64-bit platform. -/
def maxInt : Int := 9223372036854775807

/-- A mathematical integer that a Go `int` can hold. -/
def isInt (x : Int) : Prop := minInt ≤ x ∧ x ≤ maxInt

instance (x : Int) : Decidable (isInt x) := by unfold isInt; infer_instance

/-- Two's-complement wrap-around of Go `int` arithmetic. -/
def wrapInt (x : Int) : Int := (x + 9223372036854775808) % 18446744073709551616 - 9223372036854775808

/-- Go `a + b` on `int`. -/
def goAdd (a b : Int) : Int := wrapInt (a + b)

/-- Go `a - b` on `int`. -/
def goSub (a b : Int) : Int := wrapInt (a - b)

/-- Go `a / b` on `int`: truncated quotient, `none` for the run-time panic
"integer divide by zero". -/
def goDiv (a b : Int) : Option Int :=
  if b = 0 then none else some (wrapInt (Int.tdiv a b))

/-- Pagination metadata (`internal/data/metadata.go`). -/
structure Metadata where
  CurrentPage : Int
  PageSize : Int
  FirstPage : Int
  LastPage : Int
  TotalRecords : Int
  deriving DecidableEq, Repr

/-- The zero value `Metadata{}`. -/
def Metadata.zero : Metadata := ⟨0, 0, 0, 0, 0⟩

/-- `calculateMetadata` of `internal/data/metadata.go`; `none` is a run-time panic. -/
def calculateMetadata (totalRecords page pageSize : Int) : Option Metadata :=
  if totalRecords = 0 then
    some Metadata.zero
  else
    match goDiv (goSub (goAdd totalRecords pageSize) 1) pageSize with
    | none => none
    | some q =>
      some { CurrentPage := page, PageSize := pageSize, TotalRecords := totalRecords,
             FirstPage := 1, LastPage := q }

/-- Go `time.Duration`: a count of nanoseconds. -/
abbrev Duration := Int

/-- Go `time.Second`. -/
def Second : Duration := 1000000000

/-- What the delivery loop of `Mailer.Send` does, in order: a call of the transport
`m.client.Send(msg)` with the error it returned (`none` is `nil`), or a `time.Sleep`. -/
inductive MailEvent (ε : Type) where
  | attempt (result : Option ε)
  | sleep (d : Duration)
  deriving DecidableEq, Repr

/-- Result of running `Mailer.Send`: the returned error (`none` is `nil`), the state the
transport is left in, and the events in the order they happened. -/
structure SendResult (σ ε : Type) where
  err : Option ε
  transport : σ
  events : List (MailEvent ε)

/-- The `for i := 0; i < 3; i++` loop at the end of `Mailer.Send`, entered with loop
counter `i`, the current value `err` of the function's error variable, transport state `s`
and the events so far. `send` is `m.client.Send(msg)`. -/
def deliveryLoop {σ ε : Type} (send : σ → Option ε × σ) (i : Nat) (err : Option ε) (s : σ)
    (events : List (MailEvent ε)) : SendResult σ ε :=
  if i < 3 then
    match send s with
    | (none, s') => ⟨none, s', events ++ [MailEvent.attempt none]⟩
    | (some e, s') =>
      deliveryLoop send (i + 1) (some e) s'
        (events ++ [MailEvent.attempt (some e), MailEvent.sleep (30 * Second)])
  else
    ⟨err, s, events⟩
termination_by 3 - i

/-- Errors of the steps of `Mailer.Send` that come before the delivery loop, in source
order (`none` is `nil`): parsing the template file, executing the templates "subject",
"plainBody" and "htmlBody", and setting the "To" and "From" address headers. -/
structure BuildSteps (ε : Type) where
  parseFS : Option ε
  subject : Option ε
  plainBody : Option ε
  htmlBody : Option ε
  setTo : Option ε
  setFrom : Option ε

/-- The build steps all succeeded: the message is built. -/
def BuildSteps.built {ε : Type} (b : BuildSteps ε) : Prop :=
  b.parseFS = none ∧ b.subject = none ∧ b.plainBody = none ∧ b.htmlBody = none ∧
    b.setTo = none ∧ b.setFrom = none

/-- `Mailer.Send` of `internal/mailer/mailer.go`. -/
def Send {σ ε : Type} (b : BuildSteps ε) (send : σ → Option ε × σ) (s : σ) : SendResult σ ε :=
  match b.parseFS with
  | some e => ⟨some e, s, []⟩
  | none =>
  match b.subject with
  | some e => ⟨some e, s, []⟩
  | none =>
  match b.plainBody with
  | some e => ⟨some e, s, []⟩
  | none =>
  match b.htmlBody with
  | some e => ⟨some e, s, []⟩
  | none =>
  match b.setTo with
  | some e => ⟨some e, s, []⟩
  | none =>
  match b.setFrom with
  | some e => ⟨some e, s, []⟩
  | none => deliveryLoop send 0 none s []

/-- Results of the transport calls among the events, in order. -/
def attempts {ε : Type} : List (MailEvent ε) → List (Option ε)
  | [] => []
  | MailEvent.attempt r :: es => r :: attempts es
  | MailEvent.sleep _ :: es => attempts es

/-- Durations of the sleeps among the events, in order. -/
def sleeps {ε : Type} : List (MailEvent ε) → List Duration
  | [] => []
  | MailEvent.attempt _ :: es => sleeps es
  | MailEvent.sleep d :: es => d :: sleeps es

/-- A transport that replays a fixed list of results, one per call, and succeeds once
the list is used up. -/
def scripted {ε : Type} : List (Option ε) → Option ε × List (Option ε)
  | [] => (none, [])
  | r :: rs => (r, rs)

/-- Results of the first `n` successive calls of the transport from state `s`. -/
def sendResults {σ ε : Type} (send : σ → Option ε × σ) : Nat → σ → List (Option ε)
  | 0, _ => []
  | n + 1, s => (send s).1 :: sendResults send n (send s).2

/-- State of the transport after `n` successive calls from state `s`. -/
def sendState {σ ε : Type} (send : σ → Option ε × σ) : Nat → σ → σ
  | 0, s => s
  | n + 1, s => sendState send n (send s).2

/-- Go error values as `readJSON` tells them apart: the sentinels `io.EOF` and
`io.ErrUnexpectedEOF`, the error types of `encoding/json` and `net/http` it looks for,
errors that wrap nothing and are of none of these types, kept by their text
(`errors.New`, `fmt.Errorf` without `%w`, a `*time.ParseError`), and errors wrapping
another one (`fmt.Errorf` with `%w`). -/
inductive GoError where
  | EOF
  | ErrUnexpectedEOF
  | SyntaxError (msg : String) (Offset : Int)
  | UnmarshalTypeError (Value : String) (Typ : String) (Struct : String) (Field : String)
      (Offset : Int)
  | InvalidUnmarshalError (text : String)
  | MaxBytesError (Limit : Int)
  | errorString (s : String)
  | wrapError (msg : String) (err : GoError)
  deriving DecidableEq, Repr

/-- The `Error()` method of each error value. -/
def GoError.Error : GoError → String
  | GoError.EOF => "EOF"
  | GoError.ErrUnexpectedEOF => "unexpected EOF"
  | GoError.SyntaxError msg _ => msg
  | GoError.UnmarshalTypeError v t s f _ =>
    if s ≠ "" ∨ f ≠ "" then
      "json: cannot unmarshal " ++ v ++ " into Go struct field " ++ s ++ "." ++ f
        ++ " of type " ++ t
    else
      "json: cannot unmarshal " ++ v ++ " into Go value of type " ++ t
  | GoError.InvalidUnmarshalError text => "json: Unmarshal(" ++ text ++ ")"
  | GoError.MaxBytesError _ => "http: request body too large"
  | GoError.errorString s => s
  | GoError.wrapError msg _ => msg

/-- `errors.As(err, &syntaxError)` with `*json.SyntaxError`: the offset of the first
syntax error in the chain of `err`. -/
def asSyntaxError : GoError → Option Int
  | GoError.SyntaxError _ off => some off
  | GoError.wrapError _ e => asSyntaxError e
  | _ => none

/-- `errors.As(err, &unmarshalTypeError)` with `*json.UnmarshalTypeError`: the `Field`
and `Offset` of the first such error in the chain of `err`. -/
def asUnmarshalTypeError : GoError → Option (String × Int)
  | GoError.UnmarshalTypeError _ _ _ f off => some (f, off)
  | GoError.wrapError _ e => asUnmarshalTypeError e
  | _ => none

/-- `errors.As(err, &invalidUnmarshalError)` with `*json.InvalidUnmarshalError`. -/
def asInvalidUnmarshalError : GoError → Bool
  | GoError.InvalidUnmarshalError _ => true
  | GoError.wrapError _ e => asInvalidUnmarshalError e
  | _ => false

/-- `errors.As(err, &maxBytesError)` with `*http.MaxBytesError`: the `Limit` of the
first such error in the chain of `err`. -/
def asMaxBytesError : GoError → Option Int
  | GoError.MaxBytesError l => some l
  | GoError.wrapError _ e => asMaxBytesError e
  | _ => none

/-- `errors.Is(err, io.EOF)`. -/
def isEOF : GoError → Bool
  | GoError.EOF => true
  | GoError.wrapError _ e => isEOF e
  | _ => false

/-- `errors.Is(err, io.ErrUnexpectedEOF)`. -/
def isErrUnexpectedEOF : GoError → Bool
  | GoError.ErrUnexpectedEOF => true
  | GoError.wrapError _ e => isErrUnexpectedEOF e
  | _ => false

/-- Go `strings.HasPrefix(s, p)`. -/
def stringsHasPrefix (s p : String) : Bool := p.data.isPrefixOf s.data

/-- Go `strings.TrimPrefix(s, p)`. -/
def stringsTrimPrefix (s p : String) : String :=
  if stringsHasPrefix s p then String.mk (s.data.drop p.data.length) else s

/-- How a call of `readJSON` ends: it returns an error value (`none` is `nil`) or it
panics with a value. -/
inductive Outcome where
  | returned (err : Option GoError)
  | panicked (v : GoError)
  deriving DecidableEq, Repr

/-- `readJSON` of `cmd/api/helpers.go`.

`newDecoder n` is the decoder `json.NewDecoder(http.MaxBytesReader(w, r.Body, n))` with
`DisallowUnknownFields()` set, `decodeDst` is `dec.Decode(dst)` and `decodeEmpty` is
`dec.Decode(&struct{}{})`, both returning the error (`none` is `nil`) and the decoder
afterwards. `quote` is what the verb `%q` of `fmt` prints for a string. -/
def readJSON {σ : Type} (quote : String → String) (newDecoder : Int → σ)
    (decodeDst decodeEmpty : σ → Option GoError × σ) : Outcome :=
  let maxBytes : Int := 1048576
  let dec := newDecoder maxBytes
  match decodeDst dec with
  | (some err, _) =>
    match asSyntaxError err with
    | some offset =>
      Outcome.returned (some (GoError.errorString
        ("body contains badly-formed JSON (at character " ++ toString offset ++ ")")))
    | none =>
    if isErrUnexpectedEOF err then
      Outcome.returned (some (GoError.errorString "body contains badly-formed JSON"))
    else
    match asUnmarshalTypeError err with
    | some (field, offset) =>
      if field ≠ "" then
        Outcome.returned (some (GoError.errorString
          ("body contains incorrect JSON type for field " ++ quote field)))
      else
        Outcome.returned (some (GoError.errorString
          ("body contains incorrect JSON type (at character " ++ toString offset ++ ")")))
    | none =>
    if isEOF err then
      Outcome.returned (some (GoError.errorString "body must not be empty"))
    else if stringsHasPrefix err.Error "json: unknown field " then
      Outcome.returned (some (GoError.errorString
        ("body contains unknown key " ++ stringsTrimPrefix err.Error "json: unknown field ")))
    else
    match asMaxBytesError err with
    | some limit =>
      Outcome.returned (some (GoError.errorString
        ("body must not be larger than " ++ toString limit ++ " bytes")))
    | none =>
    if asInvalidUnmarshalError err then
      Outcome.panicked err
    else
      Outcome.returned (some err)
  | (none, dec1) =>
    match decodeEmpty dec1 with
    | (some err, _) =>
      if !isEOF err then
        Outcome.returned (some (GoError.errorString "body must contain a single JSON value"))
      else
        Outcome.returned none
    | (none, _) =>
      Outcome.returned (some (GoError.errorString "body must contain a single JSON value"))

/-- The seven diagnostics of `readJSON`: badly-formed JSON with an offset, badly-formed
JSON, incorrect type for a field or at an offset, empty body, unknown key, body too
large, more than one value. -/
def isDiagnostic (quote : String → String) (e : GoError) : Prop :=
  (∃ offset : Int, e = GoError.errorString
    ("body contains badly-formed JSON (at character " ++ toString offset ++ ")")) ∨
  e = GoError.errorString "body contains badly-formed JSON" ∨
  (∃ field : String, e = GoError.errorString
    ("body contains incorrect JSON type for field " ++ quote field)) ∨
  (∃ offset : Int, e = GoError.errorString
    ("body contains incorrect JSON type (at character " ++ toString offset ++ ")")) ∨
  e = GoError.errorString "body must not be empty" ∨
  (∃ name : String, e = GoError.errorString ("body contains unknown key " ++ name)) ∨
  (∃ limit : Int, e = GoError.errorString
    ("body must not be larger than " ++ toString limit ++ " bytes")) ∨
  e = GoError.errorString "body must contain a single JSON value"

/-- A request body that is a sequence of JSON objects, each given by the names of its
members in order, with nothing but white space around them. -/
abbrev ObjectStream := List (List String)

/-- The decoder of `encoding/json` with `DisallowUnknownFields()` on such a body, for a
destination struct whose members all have a type their values fit; `known` tells which
member names the destination has a field for. At the end of the body it reports
`io.EOF`; for an object with a member the destination has no field for it reports the
error `fmt.Errorf("json: unknown field %q", name)` of the first such member. -/
def streamDecode (quote : String → String) (known : String → Bool) :
    ObjectStream → Option GoError × ObjectStream
  | [] => (some GoError.EOF, [])
  | obj :: rest =>
    match obj.find? (fun k => !known k) with
    | some k => (some (GoError.errorString ("json: unknown field " ++ quote k)), rest)
    | none => (none, rest)

/-- A simple rendering of the verb `%q`, right for strings of printable characters
without a double quote or a backslash. -/
def plainQuote (s : String) : String := "\"" ++ s ++ "\""

/-- Go `url.Values`, a `map[string][]string`: the values stored under each key, `[]` for
a key that is absent. -/
abbrev Values := String → List String

/-- Go `url.Values.Get`: the first value under `key`, or "" when there is none. -/
def Values.Get (v : Values) (key : String) : String :=
  match v key with
  | [] => ""
  | x :: _ => x

/-- Go `strconv.Atoi` on a 64-bit platform: an optional sign followed by one or more
decimal digits, whose value fits an `int`; `none` when it returns an error. -/
def atoi (s : String) : Option Int :=
  let digits (ds : List Char) : Option Int :=
    if ds = [] then none
    else if ds.all Char.isDigit then
      some (Int.ofNat (ds.foldl (fun n c => n * 10 + (c.toNat - 48)) 0))
    else none
  let parsed : Option Int :=
    match s.data with
    | '-' :: ds => (digits ds).map (fun n => -n)
    | '+' :: ds => digits ds
    | ds => digits ds
  match parsed with
  | some n => if minInt ≤ n ∧ n ≤ maxInt then some n else none
  | none => none

/-- `readInt` of `cmd/api/helpers.go`. The validator is of a type `V` that this file does
not fix, and `AddError` is its method `v.AddError(key, message)`; the result is the
returned integer and the validator afterwards. -/
def readInt {V : Type} (AddError : V → String → String → V) (qs : Values) (key : String)
    (defaultValue : Int) (v : V) : Int × V :=
  let value := qs.Get key
  if value = "" then
    (defaultValue, v)
  else
    match atoi value with
    | none => (defaultValue, AddError v key "must be an integer value")
    | some i => (i, v)

/-- Modelled from the spec: the validator of package `internal/validator`, whose source
is missing here. The spec calls it a field-keyed collector in which validation messages
accumulate; it is kept as the list of the recorded messages, each with its key, in the
order they were recorded. -/
structure Validator where
  Errors : List (String × String)
  deriving DecidableEq, Repr

/-- Modelled from the spec: the method `AddError` of the validator, which is missing
here; it records `message` under `key`. -/
def Validator.AddError (v : Validator) (key message : String) : Validator :=
  ⟨v.Errors ++ [(key, message)]⟩

/-- Go `http.Header`, a `map[string][]string`, as the list of its entries; a map holds
each key once. -/
abbrev Header := List (String × List String)

/-- The map read `h[key]`. -/
def Header.lookup (h : Header) (key : String) : Option (List String) :=
  match h with
  | [] => none
  | (k, v) :: rest => if k = key then some v else Header.lookup rest key

/-- The map write `h[key] = value`: any entry under `key` is replaced. -/
def Header.assign (h : Header) (key : String) (value : List String) : Header :=
  (key, value) :: h.filter (fun e => e.1 ≠ key)

/-- The bytes `net/textproto` allows in a header field name. -/
def validHeaderFieldByte (c : Char) : Bool :=
  c.isAlphanum ||
    [33, 35, 36, 37, 38, 39, 42, 43, 45, 46, 94, 95, 96, 124, 126].contains c.toNat

/-- The letter case `net/textproto` gives a valid field name: upper case for the first
letter and each letter after a hyphen, lower case for the others. -/
def canonicalCase : Bool → List Char → List Char
  | _, [] => []
  | upper, c :: cs =>
    let d := if upper then c.toUpper else c.toLower
    d :: canonicalCase (d = '-') cs

/-- Go `textproto.CanonicalMIMEHeaderKey`: a key made of valid field-name bytes gets the
canonical letter case, any other key is returned as it is. -/
def canonicalMIMEHeaderKey (s : String) : String :=
  if s.data.all validHeaderFieldByte then String.mk (canonicalCase true s.data) else s

/-- Go `http.Header.Set`: `h[CanonicalMIMEHeaderKey(key)] = []string{value}`. -/
def Header.Set (h : Header) (key value : String) : Header :=
  h.assign (canonicalMIMEHeaderKey key) [value]

/-- All the values a header map carries for the field `name`, under any spelling of the
name: those of the entries whose key has the same canonical form. -/
def Header.fieldValues (h : Header) (name : String) : List String :=
  (h.filter (fun e => canonicalMIMEHeaderKey e.1 = canonicalMIMEHeaderKey name)).flatMap
    (fun e => e.2)

/-- State of an `http.ResponseWriter`: the header map `w.Header()`, the status code once
written, and the body written so far. -/
structure ResponseWriter where
  header : Header
  status : Option Int
  body : String
  deriving DecidableEq, Repr

/-- `w.WriteHeader(code)` as `net/http` and `httptest` do it: once a status code was
written the call does nothing; otherwise a code outside 100..999 makes it panic
(`Except.error`, with the value of the panic) and any other code is written. -/
def ResponseWriter.WriteHeader (w : ResponseWriter) (code : Int) :
    Except String ResponseWriter :=
  match w.status with
  | some _ => Except.ok w
  | none =>
    if code < 100 ∨ 999 < code then
      Except.error ("invalid WriteHeader code " ++ toString code)
    else
      Except.ok { w with status := some code }

/-- `w.Write(b)`: writes the status 200 when none was written, then the bytes. -/
def ResponseWriter.Write (w : ResponseWriter) (b : String) : ResponseWriter :=
  let w1 : ResponseWriter :=
    match w.status with
    | some _ => w
    | none => { w with status := some 200 }
  { w1 with body := w1.body ++ b }

/-- How a call of `writeJSON` ends: it returns an error value (`none` is `nil`) or it
panics with a value. -/
inductive Ending where
  | returned (err : Option GoError)
  | panicked (v : String)
  deriving DecidableEq, Repr

/-- `writeJSON` of `cmd/api/helpers.go`. `marshal` is the result of `json.Marshal(data)`,
the encoded bytes or the error; `headers` lists the entries of the header map of the
caller in the order the `range` loop visits them. The result is how the call ends and
the response writer at that point. -/
def writeJSON (w : ResponseWriter) (status : Int) (marshal : Except GoError String)
    (headers : Header) : Ending × ResponseWriter :=
  match marshal with
  | Except.error err => (Ending.returned (some err), w)
  | Except.ok js =>
    let js := js ++ "\n"
    let w1 := headers.foldl
      (fun (w : ResponseWriter) (entry : String × List String) =>
        { w with header := w.header.assign entry.1 entry.2 }) w
    let w2 := { w1 with header := w1.header.Set "Content-Type" "application/json" }
    match w2.WriteHeader status with
    | Except.error v => (Ending.panicked v, w2)
    | Except.ok w3 => (Ending.returned none, w3.Write js)

/-- A response writer nothing was written to yet. -/
def ResponseWriter.fresh : ResponseWriter := ⟨[], none, ""⟩

/-- How a task `fn` given to `background` ends: it returns, or it panics with a value,
kept here as the text that `fmt.Sprintf("%v", err)` prints for it. -/
inductive TaskOutcome where
  | returns
  | panics (v : String)
  deriving DecidableEq, Repr

/-- The fields of `application` that `background` works on: the counter of the
`sync.WaitGroup` `wg`, the messages given to `logger.Error` in order, and the goroutines
that `background` launched and that have not ended yet, each with the task it runs. -/
structure application where
  wg : Int
  logger : List String
  goroutines : List TaskOutcome
  deriving DecidableEq, Repr

/-- `app.wg.Add(delta)`: adds `delta` to the counter, and panics when the counter would
become negative. -/
def wgAdd (app : application) (delta : Int) : Except String application :=
  if app.wg + delta < 0 then
    Except.error "sync: negative WaitGroup counter"
  else
    Except.ok { app with wg := app.wg + delta }

/-- `app.wg.Wait()` returns once the counter is zero. -/
def waitReturns (app : application) : Prop := app.wg = 0

instance (app : application) : Decidable (waitReturns app) := by
  unfold waitReturns; infer_instance

/-- `background` of `cmd/api/helpers.go`: `app.wg.Add(1)`, then the `go` statement, which
launches the goroutine that runs `fn`. `Except.error` is a panic in the caller. -/
def background (app : application) (fn : TaskOutcome) : Except String application :=
  match wgAdd app 1 with
  | Except.error p => Except.error p
  | Except.ok app1 => Except.ok { app1 with goroutines := app1.goroutines ++ [fn] }

/-- The body of the goroutine that `background` launches, run to its end: `fn()`, then
the deferred calls in reverse order of their `defer` statements, first the function that
calls `recover()` and logs a panic, then `app.wg.Done()`. The second component is the
panic that leaves the goroutine, if any; such a panic ends the process. -/
def goroutine (app : application) (fn : TaskOutcome) : application × Option String :=
  let panicking : Option String :=
    match fn with
    | TaskOutcome.returns => none
    | TaskOutcome.panics v => some v
  let recovered : application × Option String :=
    match panicking with
    | some err => ({ app with logger := app.logger ++ [err] }, none)
    | none => (app, none)
  match wgAdd recovered.1 (-1) with
  | Except.ok app2 => (app2, recovered.2)
  | Except.error p => (recovered.1, some p)

/-- The process: the application state and the panic that ended it, if any. -/
structure Process where
  app : application
  crashed : Option String
  deriving DecidableEq, Repr

/-- What happens next in the process: a handler calls `background fn`, or the `i`-th of
the running goroutines runs to its end. -/
inductive Action where
  | submit (fn : TaskOutcome)
  | finish (i : Nat)
  deriving DecidableEq, Repr

/-- One action of the process. A process that a panic ended does nothing more. -/
def step (p : Process) (a : Action) : Process :=
  match p.crashed with
  | some _ => p
  | none =>
    match a with
    | Action.submit fn =>
      match background p.app fn with
      | Except.ok app1 => { p with app := app1 }
      | Except.error e => { p with crashed := some e }
    | Action.finish i =>
      match p.app.goroutines.get? i with
      | none => p
      | some fn =>
        let r := goroutine { p.app with goroutines := p.app.goroutines.eraseIdx i } fn
        { app := r.1, crashed := r.2 }

/-- The process after a sequence of actions, the goroutines ending in any order. -/
def run (p : Process) (actions : List Action) : Process :=
  actions.foldl step p

/-- The process at start: counter zero, nothing logged, no goroutine. -/
def Process.start : Process := ⟨⟨0, [], []⟩, none⟩

/-! Theorems. -/

theorem wrapInt_of_isInt (x : Int) (h : isInt x) : wrapInt x = x := by
  unfold isInt minInt maxInt at h
  unfold wrapInt
  omega

theorem goSub_goAdd_one (a b : Int) : goSub (goAdd a b) 1 = wrapInt (a + b - 1) := by
  unfold goSub goAdd wrapInt
  omega

theorem ceil_quotient_isLeast (a b : Int) (hb : 0 < b) :
    IsLeast {n : Int | a ≤ n * b} ((a + b - 1) / b) := by
  have h1 : (a + b - 1) / b * b ≤ a + b - 1 := Int.ediv_mul_le _ (ne_of_gt hb)
  have h2 : a + b - 1 < ((a + b - 1) / b + 1) * b := Int.lt_ediv_add_one_mul_self _ hb
  constructor
  · show a ≤ (a + b - 1) / b * b
    nlinarith
  · intro n hn
    have hn' : a ≤ n * b := hn
    by_contra hlt
    push_neg at hlt
    have h3 : n + 1 ≤ (a + b - 1) / b := hlt
    have h4 : (n + 1) * b ≤ (a + b - 1) / b * b := Int.mul_le_mul_of_nonneg_right h3 (le_of_lt hb)
    nlinarith

/-- C1, amended. For `totalRecords > 0`, `page > 0` and `pageSize > 0` with
`totalRecords + pageSize - 1` no larger than the largest `int`, `calculateMetadata` returns
`FirstPage = 1`, `CurrentPage = page`, `PageSize = pageSize`, `TotalRecords = totalRecords`
and as `LastPage` the least `n` with `n * pageSize ≥ totalRecords`. -/
theorem calculateMetadata_pos (totalRecords page pageSize : Int)
    (htr : 0 < totalRecords) (_hpage : 0 < page) (hps : 0 < pageSize)
    (hfit : totalRecords + pageSize - 1 ≤ maxInt) :
    ∃ q : Int, calculateMetadata totalRecords page pageSize
        = some { CurrentPage := page, PageSize := pageSize, TotalRecords := totalRecords,
                 FirstPage := 1, LastPage := q }
      ∧ IsLeast {n : Int | totalRecords ≤ n * pageSize} q := by
  refine ⟨(totalRecords + pageSize - 1) / pageSize, ?_, ceil_quotient_isLeast _ _ hps⟩
  have hs : 0 ≤ totalRecords + pageSize - 1 := by omega
  have hq0 : 0 ≤ (totalRecords + pageSize - 1) / pageSize := Int.ediv_nonneg hs (le_of_lt hps)
  have hq1 : (totalRecords + pageSize - 1) / pageSize ≤ totalRecords + pageSize - 1 :=
    Int.ediv_le_self _ hs
  have hw : wrapInt (totalRecords + pageSize - 1) = totalRecords + pageSize - 1 :=
    wrapInt_of_isInt _ ⟨by unfold minInt; omega, hfit⟩
  have hwq : wrapInt ((totalRecords + pageSize - 1) / pageSize)
      = (totalRecords + pageSize - 1) / pageSize :=
    wrapInt_of_isInt _ ⟨by unfold minInt; omega, by unfold maxInt at *; omega⟩
  unfold calculateMetadata
  rw [if_neg (ne_of_gt htr), goSub_goAdd_one, hw]
  unfold goDiv
  rw [if_neg (ne_of_gt hps), Int.tdiv_eq_ediv hs (le_of_lt hps), hwq]

/-- C1 on 22 records in pages of 5: page 3 of 5. -/
theorem calculateMetadata_pos_witness :
    (∃ q : Int, calculateMetadata 22 3 5
        = some { CurrentPage := 3, PageSize := 5, TotalRecords := 22,
                 FirstPage := 1, LastPage := q }
      ∧ IsLeast {n : Int | (22 : Int) ≤ n * 5} q) ∧
    calculateMetadata 22 3 5
      = some { CurrentPage := 3, PageSize := 5, TotalRecords := 22,
               FirstPage := 1, LastPage := 5 } :=
  ⟨calculateMetadata_pos 22 3 5 (by decide) (by decide) (by decide) (by decide), by decide⟩

/-- C1, refuted: 2 records with the page size 9223372036854775807, the largest `int`.
The sum `totalRecords + pageSize` wraps around, `LastPage` comes out as -1, and -1 is not
the least `n` with `n * pageSize ≥ 2`, which is 1. -/
theorem calculateMetadata_overflow :
    isInt 2 ∧ isInt 1 ∧ isInt 9223372036854775807 ∧
    calculateMetadata 2 1 9223372036854775807
      = some { CurrentPage := 1, PageSize := 9223372036854775807, TotalRecords := 2,
               FirstPage := 1, LastPage := -1 } ∧
    ¬ IsLeast {n : Int | (2 : Int) ≤ n * 9223372036854775807} (-1) ∧
    IsLeast {n : Int | (2 : Int) ≤ n * 9223372036854775807} 1 := by
  refine ⟨by decide, by decide, by decide, by decide, ?_, ?_⟩
  · intro h
    have h1 : (2 : Int) ≤ (-1) * 9223372036854775807 := h.1
    omega
  · constructor
    · show (2 : Int) ≤ 1 * 9223372036854775807
      omega
    · intro n hn
      have h1 : (2 : Int) ≤ n * 9223372036854775807 := hn
      omega

/-- C2. For every `page` and `pageSize`, zero and negative ones included,
`calculateMetadata(0, page, pageSize)` returns the zero `Metadata`; with `pageSize = 0` it
still returns, where a division would panic, as the call with one record does. -/
theorem calculateMetadata_zero (page pageSize : Int) :
    calculateMetadata 0 page pageSize
        = some { CurrentPage := 0, PageSize := 0, TotalRecords := 0, FirstPage := 0,
                 LastPage := 0 } ∧
    calculateMetadata 0 page 0 = some Metadata.zero ∧
    calculateMetadata 1 page 0 = none := by
  refine ⟨?_, ?_, ?_⟩
  · simp [calculateMetadata, Metadata.zero]
  · simp [calculateMetadata]
  · simp [calculateMetadata, goDiv]

theorem Send_built {σ ε : Type} (b : BuildSteps ε) (hb : b.built) (send : σ → Option ε × σ)
    (s : σ) : Send b send s = deliveryLoop send 0 none s [] := by
  obtain ⟨h1, h2, h3, h4, h5, h6⟩ := hb
  simp [Send, h1, h2, h3, h4, h5, h6]

theorem deliveryLoop_one_ok {σ ε : Type} (send : σ → Option ε × σ) (s s1 : σ)
    (h1 : send s = (none, s1)) :
    deliveryLoop send 0 none s [] = ⟨none, s1, [MailEvent.attempt none]⟩ := by
  rw [deliveryLoop]
  simp [h1]

theorem deliveryLoop_two_ok {σ ε : Type} (send : σ → Option ε × σ) (s s1 s2 : σ) (e1 : ε)
    (h1 : send s = (some e1, s1)) (h2 : send s1 = (none, s2)) :
    deliveryLoop send 0 none s []
      = ⟨none, s2, [MailEvent.attempt (some e1), MailEvent.sleep (30 * Second),
          MailEvent.attempt none]⟩ := by
  rw [deliveryLoop]
  simp only [Nat.lt_add_one, Nat.reduceLT, if_true, h1]
  rw [deliveryLoop]
  simp [h2]

theorem deliveryLoop_three_ok {σ ε : Type} (send : σ → Option ε × σ) (s s1 s2 s3 : σ)
    (e1 e2 : ε) (h1 : send s = (some e1, s1)) (h2 : send s1 = (some e2, s2))
    (h3 : send s2 = (none, s3)) :
    deliveryLoop send 0 none s []
      = ⟨none, s3, [MailEvent.attempt (some e1), MailEvent.sleep (30 * Second),
          MailEvent.attempt (some e2), MailEvent.sleep (30 * Second),
          MailEvent.attempt none]⟩ := by
  rw [deliveryLoop]
  simp only [Nat.lt_add_one, Nat.reduceLT, if_true, h1]
  rw [deliveryLoop]
  simp only [Nat.reduceAdd, Nat.reduceLT, if_true, h2]
  rw [deliveryLoop]
  simp [h3]

theorem deliveryLoop_three_fail {σ ε : Type} (send : σ → Option ε × σ) (s s1 s2 s3 : σ)
    (e1 e2 e3 : ε) (h1 : send s = (some e1, s1)) (h2 : send s1 = (some e2, s2))
    (h3 : send s2 = (some e3, s3)) :
    deliveryLoop send 0 none s []
      = ⟨some e3, s3, [MailEvent.attempt (some e1), MailEvent.sleep (30 * Second),
          MailEvent.attempt (some e2), MailEvent.sleep (30 * Second),
          MailEvent.attempt (some e3), MailEvent.sleep (30 * Second)]⟩ := by
  rw [deliveryLoop]
  simp only [Nat.lt_add_one, Nat.reduceLT, if_true, h1]
  rw [deliveryLoop]
  simp only [Nat.reduceAdd, Nat.reduceLT, if_true, h2]
  rw [deliveryLoop]
  simp only [Nat.reduceAdd, Nat.reduceLT, if_true, h3]
  rw [deliveryLoop]
  simp


theorem deliveryLoop_cases {σ ε : Type} (send : σ → Option ε × σ) (s : σ) :
    (∃ s1, send s = (none, s1) ∧
      deliveryLoop send 0 none s [] = ⟨none, s1, [MailEvent.attempt none]⟩) ∨
    (∃ e1 s1 s2, send s = (some e1, s1) ∧ send s1 = (none, s2) ∧
      deliveryLoop send 0 none s []
        = ⟨none, s2, [MailEvent.attempt (some e1), MailEvent.sleep (30 * Second),
            MailEvent.attempt none]⟩) ∨
    (∃ e1 e2 s1 s2 s3, send s = (some e1, s1) ∧ send s1 = (some e2, s2) ∧
      send s2 = (none, s3) ∧
      deliveryLoop send 0 none s []
        = ⟨none, s3, [MailEvent.attempt (some e1), MailEvent.sleep (30 * Second),
            MailEvent.attempt (some e2), MailEvent.sleep (30 * Second),
            MailEvent.attempt none]⟩) ∨
    (∃ e1 e2 e3 s1 s2 s3, send s = (some e1, s1) ∧ send s1 = (some e2, s2) ∧
      send s2 = (some e3, s3) ∧
      deliveryLoop send 0 none s []
        = ⟨some e3, s3, [MailEvent.attempt (some e1), MailEvent.sleep (30 * Second),
            MailEvent.attempt (some e2), MailEvent.sleep (30 * Second),
            MailEvent.attempt (some e3), MailEvent.sleep (30 * Second)]⟩) := by
  rcases h1 : send s with ⟨_ | e1, s1⟩
  · exact Or.inl ⟨s1, rfl, deliveryLoop_one_ok send s s1 h1⟩
  · rcases h2 : send s1 with ⟨_ | e2, s2⟩
    · exact Or.inr (Or.inl ⟨e1, s1, s2, rfl, h2, deliveryLoop_two_ok send s s1 s2 e1 h1 h2⟩)
    · rcases h3 : send s2 with ⟨_ | e3, s3⟩
      · exact Or.inr (Or.inr (Or.inl ⟨e1, e2, s1, s2, s3, rfl, h2, h3,
          deliveryLoop_three_ok send s s1 s2 s3 e1 e2 h1 h2 h3⟩))
      · exact Or.inr (Or.inr (Or.inr ⟨e1, e2, e3, s1, s2, s3, rfl, h2, h3,
          deliveryLoop_three_fail send s s1 s2 s3 e1 e2 e3 h1 h2 h3⟩))

/-- C3. Once the message is built, `Mailer.Send` calls the transport at most 3 times, the
calls being successive calls on the transport; if the transport fails `k ≤ 2` times and
then succeeds, `Send` returns `nil` after exactly those `k + 1` calls; and if the first
three calls fail, `Send` returns the error of the third after exactly 3 calls. -/
theorem Send_attempts {σ ε : Type} (b : BuildSteps ε) (hb : b.built)
    (send : σ → Option ε × σ) (s : σ) :
    (attempts (Send b send s).events).length ≤ 3 ∧
    attempts (Send b send s).events
      = sendResults send (attempts (Send b send s).events).length s ∧
    (Send b send s).transport = sendState send (attempts (Send b send s).events).length s ∧
    (∀ es : List ε, es.length ≤ 2 →
      sendResults send (es.length + 1) s = es.map some ++ [none] →
      (Send b send s).err = none ∧ attempts (Send b send s).events = es.map some ++ [none]) ∧
    (∀ e1 e2 e3 : ε, sendResults send 3 s = [some e1, some e2, some e3] →
      (Send b send s).err = some e3 ∧
      attempts (Send b send s).events = [some e1, some e2, some e3]) := by
  rw [Send_built b hb]
  rcases deliveryLoop_cases send s with ⟨s1, h1, h⟩ | ⟨e1, s1, s2, h1, h2, h⟩ |
    ⟨e1, e2, s1, s2, s3, h1, h2, h3, h⟩ | ⟨e1, e2, e3, s1, s2, s3, h1, h2, h3, h⟩
  · rw [h]
    refine ⟨by simp [attempts], by simp [attempts, sendResults, h1],
      by simp [attempts, sendState, h1], ?_, ?_⟩
    · intro es hlen hres
      match es, hlen, hres with
      | [], _, _ => simp [attempts]
      | [a], _, hres => simp [sendResults, h1] at hres
      | [a, c], _, hres => simp [sendResults, h1] at hres
      | _ :: _ :: _ :: _, hlen, _ => simp at hlen
    · intro a c d hr
      simp [sendResults, h1] at hr
  · rw [h]
    refine ⟨by simp [attempts], by simp [attempts, sendResults, h1, h2],
      by simp [attempts, sendState, h1, h2], ?_, ?_⟩
    · intro es hlen hres
      match es, hlen, hres with
      | [], _, hres => simp [sendResults, h1] at hres
      | [a], _, hres =>
        simp [sendResults, h1, h2] at hres
        simp [attempts, hres]
      | [a, c], _, hres => simp [sendResults, h1, h2] at hres
      | _ :: _ :: _ :: _, hlen, _ => simp at hlen
    · intro a c d hr
      simp [sendResults, h1, h2] at hr
  · rw [h]
    refine ⟨by simp [attempts], by simp [attempts, sendResults, h1, h2, h3],
      by simp [attempts, sendState, h1, h2, h3], ?_, ?_⟩
    · intro es hlen hres
      match es, hlen, hres with
      | [], _, hres => simp [sendResults, h1] at hres
      | [a], _, hres => simp [sendResults, h1, h2] at hres
      | [a, c], _, hres =>
        simp [sendResults, h1, h2, h3] at hres
        simp [attempts, hres]
      | _ :: _ :: _ :: _, hlen, _ => simp at hlen
    · intro a c d hr
      simp [sendResults, h1, h2, h3] at hr
  · rw [h]
    refine ⟨by simp [attempts], by simp [attempts, sendResults, h1, h2, h3],
      by simp [attempts, sendState, h1, h2, h3], ?_, ?_⟩
    · intro es hlen hres
      match es, hlen, hres with
      | [], _, hres => simp [sendResults, h1] at hres
      | [a], _, hres => simp [sendResults, h1, h2] at hres
      | [a, c], _, hres => simp [sendResults, h1, h2, h3] at hres
      | _ :: _ :: _ :: _, hlen, _ => simp at hlen
    · intro a c d hr
      simp [sendResults, h1, h2, h3] at hr
      simp [attempts, hr]

/-- C3, at a transport that fails twice and then succeeds, and at one that fails
three times. -/
theorem Send_attempts_witness :
    (Send (⟨none, none, none, none, none, none⟩ : BuildSteps String) scripted
        [some "x", some "y", none, some "z"]).err = none ∧
    attempts (Send (⟨none, none, none, none, none, none⟩ : BuildSteps String) scripted
        [some "x", some "y", none, some "z"]).events = [some "x", some "y", none] ∧
    (Send (⟨none, none, none, none, none, none⟩ : BuildSteps String) scripted
        [some "x", some "y", some "z", none]).err = some "z" ∧
    attempts (Send (⟨none, none, none, none, none, none⟩ : BuildSteps String) scripted
        [some "x", some "y", some "z", none]).events = [some "x", some "y", some "z"] :=
  ⟨((Send_attempts ⟨none, none, none, none, none, none⟩ ⟨rfl, rfl, rfl, rfl, rfl, rfl⟩ scripted
      [some "x", some "y", none, some "z"]).2.2.2.1 ["x", "y"] (by decide) (by decide)).1,
   ((Send_attempts ⟨none, none, none, none, none, none⟩ ⟨rfl, rfl, rfl, rfl, rfl, rfl⟩ scripted
      [some "x", some "y", none, some "z"]).2.2.2.1 ["x", "y"] (by decide) (by decide)).2,
   ((Send_attempts ⟨none, none, none, none, none, none⟩ ⟨rfl, rfl, rfl, rfl, rfl, rfl⟩ scripted
      [some "x", some "y", some "z", none]).2.2.2.2 "x" "y" "z" (by decide)).1,
   ((Send_attempts ⟨none, none, none, none, none, none⟩ ⟨rfl, rfl, rfl, rfl, rfl, rfl⟩ scripted
      [some "x", some "y", some "z", none]).2.2.2.2 "x" "y" "z" (by decide)).2⟩


/-- When the transport fails `k ≤ 2` times and then succeeds, exactly `k` sleeps of
30 seconds happen, each between a failed call and the next one. -/
theorem Send_sleeps_before_success {σ ε : Type} (b : BuildSteps ε) (hb : b.built)
    (send : σ → Option ε × σ) (s : σ) (es : List ε) (hlen : es.length ≤ 2)
    (hres : sendResults send (es.length + 1) s = es.map some ++ [none]) :
    sleeps (Send b send s).events = List.replicate es.length (30 * Second) := by
  rw [Send_built b hb]
  rcases deliveryLoop_cases send s with ⟨s1, h1, h⟩ | ⟨e1, s1, s2, h1, h2, h⟩ |
    ⟨e1, e2, s1, s2, s3, h1, h2, h3, h⟩ | ⟨e1, e2, e3, s1, s2, s3, h1, h2, h3, h⟩
  all_goals
    rw [h]
    match es, hlen, hres with
    | [], _, hres => simp_all [sendResults, sleeps, List.replicate]
    | [a], _, hres => simp_all [sendResults, sleeps, List.replicate]
    | [a, c], _, hres => simp_all [sendResults, sleeps, List.replicate]
    | _ :: _ :: _ :: _, hlen, _ => simp at hlen

/-- C4. When the first three transport calls fail, `Mailer.Send` sleeps 30 seconds after
each of them, the third included: three sleeps, 90 seconds in all, the last one after the
final attempt and before the error is returned. -/
theorem Send_sleeps_after_last_failure {σ ε : Type} (b : BuildSteps ε) (hb : b.built)
    (send : σ → Option ε × σ) (s : σ) (e1 e2 e3 : ε)
    (hres : sendResults send 3 s = [some e1, some e2, some e3]) :
    (Send b send s).err = some e3 ∧
    (Send b send s).events
      = [MailEvent.attempt (some e1), MailEvent.sleep (30 * Second),
         MailEvent.attempt (some e2), MailEvent.sleep (30 * Second),
         MailEvent.attempt (some e3), MailEvent.sleep (30 * Second)] ∧
    sleeps (Send b send s).events = [30 * Second, 30 * Second, 30 * Second] ∧
    (sleeps (Send b send s).events).sum = 90 * Second := by
  rw [Send_built b hb]
  rcases deliveryLoop_cases send s with ⟨s1, h1, h⟩ | ⟨e1, s1, s2, h1, h2, h⟩ |
    ⟨e1, e2, s1, s2, s3, h1, h2, h3, h⟩ | ⟨a1, a2, a3, s1, s2, s3, h1, h2, h3, h⟩
  · simp [sendResults, h1] at hres
  · simp [sendResults, h1, h2] at hres
  · simp [sendResults, h1, h2, h3] at hres
  · simp [sendResults, h1, h2, h3] at hres
    obtain ⟨rfl, rfl, rfl⟩ := hres
    rw [h]
    refine ⟨rfl, rfl, by simp [sleeps], ?_⟩
    simp only [sleeps, List.sum_cons, List.sum_nil, Second]
    norm_num

/-- C4 at a transport that fails three times. -/
theorem Send_sleeps_after_last_failure_witness :
    (sleeps (Send (⟨none, none, none, none, none, none⟩ : BuildSteps String) scripted
        [some "x", some "y", some "z"]).events).length = 3 ∧
    (sleeps (Send (⟨none, none, none, none, none, none⟩ : BuildSteps String) scripted
        [some "x", some "y", some "z"]).events).sum = 90000000000 := by
  have h := Send_sleeps_after_last_failure (⟨none, none, none, none, none, none⟩ : BuildSteps String)
    ⟨rfl, rfl, rfl, rfl, rfl, rfl⟩ scripted [some "x", some "y", some "z"] "x" "y" "z"
    (by decide)
  refine ⟨?_, ?_⟩
  · rw [h.2.2.1]; rfl
  · rw [h.2.2.2]; decide


theorem stringsHasPrefix_append (p t : String) : stringsHasPrefix (p ++ t) p = true := by
  unfold stringsHasPrefix
  rw [String.data_append, List.isPrefixOf_iff_prefix]
  exact List.prefix_append _ _

theorem stringsTrimPrefix_append (p t : String) : stringsTrimPrefix (p ++ t) p = t := by
  unfold stringsTrimPrefix
  rw [if_pos (stringsHasPrefix_append p t), String.data_append, List.drop_left]

/-- Two strings with a common continuation: one of them starts with the other. -/
theorem append_ne_of_not_isPrefixOf (a b t u : String)
    (h1 : a.data.isPrefixOf b.data = false) (h2 : b.data.isPrefixOf a.data = false) :
    a ++ t ≠ b ++ u := by
  intro h
  have h3 := congrArg String.data h
  rw [String.data_append, String.data_append] at h3
  have ha : a.data <+: a.data ++ t.data := List.prefix_append _ _
  have hb : b.data <+: a.data ++ t.data := h3 ▸ List.prefix_append _ _
  rcases List.prefix_or_prefix_of_prefix ha hb with hp | hp
  · rw [← List.isPrefixOf_iff_prefix] at hp
    rw [hp] at h1
    exact Bool.noConfusion h1
  · rw [← List.isPrefixOf_iff_prefix] at hp
    rw [hp] at h2
    exact Bool.noConfusion h2

/-- C5. `readJSON` sorts the error `err` of the first `Decode` by its kind. `io.EOF`
gives "body must not be empty", which is neither of the badly-formed-JSON messages; a
`json.SyntaxError` gives the badly-formed message with its offset; `io.ErrUnexpectedEOF`
gives the badly-formed message; a `json.UnmarshalTypeError` gives the incorrect-type
message, with the quoted field when `Field` is not empty and with the offset otherwise;
an error that none of these cases takes and whose text is "json: unknown field "
followed by `name` gives "body contains unknown key " followed by `name`; an
`http.MaxBytesError` gives "body must not be larger than <Limit> bytes". The decoder is
made with the limit 1048576. -/
theorem readJSON_classifies {σ : Type} (quote : String → String) (newDecoder : Int → σ)
    (decodeDst decodeEmpty : σ → Option GoError × σ) (err : GoError) (dec1 : σ)
    (h : decodeDst (newDecoder 1048576) = (some err, dec1)) :
    (err = GoError.EOF →
      readJSON quote newDecoder decodeDst decodeEmpty
        = Outcome.returned (some (GoError.errorString "body must not be empty")) ∧
      readJSON quote newDecoder decodeDst decodeEmpty
        ≠ Outcome.returned (some (GoError.errorString "body contains badly-formed JSON")) ∧
      ∀ offset : Int, readJSON quote newDecoder decodeDst decodeEmpty
        ≠ Outcome.returned (some (GoError.errorString
            ("body contains badly-formed JSON (at character " ++ toString offset ++ ")")))) ∧
    (∀ (msg : String) (offset : Int), err = GoError.SyntaxError msg offset →
      readJSON quote newDecoder decodeDst decodeEmpty
        = Outcome.returned (some (GoError.errorString
            ("body contains badly-formed JSON (at character " ++ toString offset ++ ")")))) ∧
    (err = GoError.ErrUnexpectedEOF →
      readJSON quote newDecoder decodeDst decodeEmpty
        = Outcome.returned (some (GoError.errorString "body contains badly-formed JSON"))) ∧
    (∀ (v t s field : String) (offset : Int),
      err = GoError.UnmarshalTypeError v t s field offset →
      (field ≠ "" →
        readJSON quote newDecoder decodeDst decodeEmpty
          = Outcome.returned (some (GoError.errorString
              ("body contains incorrect JSON type for field " ++ quote field)))) ∧
      (field = "" →
        readJSON quote newDecoder decodeDst decodeEmpty
          = Outcome.returned (some (GoError.errorString
              ("body contains incorrect JSON type (at character " ++ toString offset
                ++ ")"))))) ∧
    (∀ name : String, asSyntaxError err = none → isErrUnexpectedEOF err = false →
      asUnmarshalTypeError err = none → isEOF err = false →
      err.Error = "json: unknown field " ++ name →
      readJSON quote newDecoder decodeDst decodeEmpty
        = Outcome.returned (some (GoError.errorString
            ("body contains unknown key " ++ name)))) ∧
    (∀ limit : Int, err = GoError.MaxBytesError limit →
      readJSON quote newDecoder decodeDst decodeEmpty
        = Outcome.returned (some (GoError.errorString
            ("body must not be larger than " ++ toString limit ++ " bytes")))) := by
  refine ⟨?_, ?_, ?_, ?_, ?_, ?_⟩
  · intro he
    subst he
    have hr : readJSON quote newDecoder decodeDst decodeEmpty
        = Outcome.returned (some (GoError.errorString "body must not be empty")) := by
      simp [readJSON, h, asSyntaxError, isErrUnexpectedEOF, asUnmarshalTypeError, isEOF]
    rw [hr]
    refine ⟨rfl, by decide, ?_⟩
    intro offset hc
    injection hc with hc
    injection hc with hc
    injection hc with hc
    exact append_ne_of_not_isPrefixOf "body must not be empty"
      "body contains badly-formed JSON (at character " "" (toString offset ++ ")")
      (by decide) (by decide) (by simpa [String.append_assoc] using hc)
  · intro msg offset he
    subst he
    simp [readJSON, h, asSyntaxError]
  · intro he
    subst he
    simp [readJSON, h, asSyntaxError, isErrUnexpectedEOF]
  · intro v t s field offset he
    subst he
    constructor
    · intro hf
      simp [readJSON, h, asSyntaxError, isErrUnexpectedEOF, asUnmarshalTypeError, hf]
    · intro hf
      simp [readJSON, h, asSyntaxError, isErrUnexpectedEOF, asUnmarshalTypeError, hf]
  · intro name h1 h2 h3 h4 h5
    simp [readJSON, h, h1, h2, h3, h4, h5, stringsHasPrefix_append, stringsTrimPrefix_append]
  · intro limit he
    subst he
    have hp : stringsHasPrefix "http: request body too large" "json: unknown field " = false := by
      decide
    simp [readJSON, h, asSyntaxError, isErrUnexpectedEOF, asUnmarshalTypeError, isEOF,
      asMaxBytesError, GoError.Error, hp]

/-- C5 on an empty body, on the body `{"unknown_field": 1}` read into a struct whose only
field is `name`, and on a body whose first value does not end within the size limit. -/
theorem readJSON_classifies_witness :
    readJSON plainQuote (fun _ => ([] : ObjectStream)) (streamDecode plainQuote (· == "name"))
        (streamDecode plainQuote (fun _ => false))
      = Outcome.returned (some (GoError.errorString "body must not be empty")) ∧
    readJSON plainQuote (fun _ => ([["unknown_field"]] : ObjectStream))
        (streamDecode plainQuote (· == "name")) (streamDecode plainQuote (fun _ => false))
      = Outcome.returned (some (GoError.errorString
          "body contains unknown key \"unknown_field\"")) ∧
    readJSON plainQuote (fun n : Int => n) (fun n => (some (GoError.MaxBytesError n), n))
        (fun n => (none, n))
      = Outcome.returned (some (GoError.errorString
          "body must not be larger than 1048576 bytes")) :=
  ⟨((readJSON_classifies plainQuote (fun _ => ([] : ObjectStream))
      (streamDecode plainQuote (· == "name")) (streamDecode plainQuote (fun _ => false))
      GoError.EOF [] rfl).1 rfl).1,
   (readJSON_classifies plainQuote (fun _ => ([["unknown_field"]] : ObjectStream))
      (streamDecode plainQuote (· == "name")) (streamDecode plainQuote (fun _ => false))
      (GoError.errorString "json: unknown field \"unknown_field\"") [] (by decide)).2.2.2.2.1
      "\"unknown_field\"" rfl rfl rfl rfl (by decide),
   (readJSON_classifies plainQuote (fun n : Int => n)
      (fun n => (some (GoError.MaxBytesError n), n)) (fun n => (none, n))
      (GoError.MaxBytesError 1048576) 1048576 rfl).2.2.2.2.2 1048576 rfl⟩

/-- C6. When the first `Decode` succeeds, `readJSON` returns `nil` exactly when the
second `Decode` reports an error that is `io.EOF`; when the second `Decode` decodes
another value or reports any other error, `readJSON` returns the error "body must
contain a single JSON value". -/
theorem readJSON_single_value {σ : Type} (quote : String → String) (newDecoder : Int → σ)
    (decodeDst decodeEmpty : σ → Option GoError × σ) (dec1 dec2 : σ) (r2 : Option GoError)
    (h1 : decodeDst (newDecoder 1048576) = (none, dec1))
    (h2 : decodeEmpty dec1 = (r2, dec2)) :
    (readJSON quote newDecoder decodeDst decodeEmpty = Outcome.returned none
      ↔ ∃ e, r2 = some e ∧ isEOF e = true) ∧
    ((¬ ∃ e, r2 = some e ∧ isEOF e = true) →
      readJSON quote newDecoder decodeDst decodeEmpty
        = Outcome.returned (some (GoError.errorString
            "body must contain a single JSON value"))) := by
  cases r2 with
  | none => simp [readJSON, h1, h2]
  | some e =>
    cases he : isEOF e <;> simp [readJSON, h1, h2, he]

/-- C6 on the body `{"a":1}{"b":2}` read into a struct whose only field is `a`: the
second `Decode` reports the unknown field `b`, and `readJSON` returns the error "body
must contain a single JSON value"; and on the body `{"a":1}` it returns `nil`. -/
theorem readJSON_single_value_witness :
    readJSON plainQuote (fun _ => ([["a"], ["b"]] : ObjectStream))
        (streamDecode plainQuote (· == "a")) (streamDecode plainQuote (fun _ => false))
      = Outcome.returned (some (GoError.errorString
          "body must contain a single JSON value")) ∧
    readJSON plainQuote (fun _ => ([["a"]] : ObjectStream))
        (streamDecode plainQuote (· == "a")) (streamDecode plainQuote (fun _ => false))
      = Outcome.returned none :=
  ⟨(readJSON_single_value plainQuote (fun _ => ([["a"], ["b"]] : ObjectStream))
      (streamDecode plainQuote (· == "a")) (streamDecode plainQuote (fun _ => false))
      [["b"]] [] (some (GoError.errorString "json: unknown field \"b\"")) (by decide)
      (by decide)).2 (by decide),
   (readJSON_single_value plainQuote (fun _ => ([["a"]] : ObjectStream))
      (streamDecode plainQuote (· == "a")) (streamDecode plainQuote (fun _ => false))
      [] [] (some GoError.EOF) (by decide) (by decide)).1.2 ⟨GoError.EOF, rfl, rfl⟩⟩

theorem ne_append_of_not_isPrefixOf (a b u : String)
    (h1 : a.data.isPrefixOf b.data = false) (h2 : b.data.isPrefixOf a.data = false) :
    a ≠ b ++ u := by
  have h := append_ne_of_not_isPrefixOf a b "" u h1 h2
  simpa using h

/-- C7. The claim fails on the code: for the body `{"t":"notatime"}` read into a struct
with a `time.Time` field `t`, `Decode` returns the `*time.ParseError` of the field, no
case of the switch takes it, and `readJSON` returns that very error, which is none of
the seven diagnostics; the same happens for the body `{"t":5}`, where `Decode` returns
the plain error of `Time.UnmarshalJSON`. -/
theorem readJSON_returns_decoder_error :
    readJSON plainQuote (fun _ => ())
        (fun _ => (some (GoError.errorString
          "parsing time \"notatime\" as \"2006-01-02T15:04:05Z07:00\": cannot parse \"notatime\" as \"2006\""),
          ()))
        (fun _ => (some GoError.EOF, ()))
      = Outcome.returned (some (GoError.errorString
          "parsing time \"notatime\" as \"2006-01-02T15:04:05Z07:00\": cannot parse \"notatime\" as \"2006\"")) ∧
    ¬ isDiagnostic plainQuote (GoError.errorString
        "parsing time \"notatime\" as \"2006-01-02T15:04:05Z07:00\": cannot parse \"notatime\" as \"2006\"") ∧
    readJSON plainQuote (fun _ => ())
        (fun _ => (some (GoError.errorString
          "Time.UnmarshalJSON: input is not a JSON string"), ()))
        (fun _ => (some GoError.EOF, ()))
      = Outcome.returned (some (GoError.errorString
          "Time.UnmarshalJSON: input is not a JSON string")) ∧
    ¬ isDiagnostic plainQuote (GoError.errorString
        "Time.UnmarshalJSON: input is not a JSON string") := by
  refine ⟨by decide, ?_, by decide, ?_⟩
  · unfold isDiagnostic
    simp only [GoError.errorString.injEq]
    rintro (⟨o, h⟩ | h | ⟨f, h⟩ | ⟨o, h⟩ | h | ⟨n, h⟩ | ⟨l, h⟩ | h)
    · exact ne_append_of_not_isPrefixOf
        "parsing time \"notatime\" as \"2006-01-02T15:04:05Z07:00\": cannot parse \"notatime\" as \"2006\""
        "body contains badly-formed JSON (at character "
        (toString o ++ ")") (by decide) (by decide) (by simpa [String.append_assoc] using h)
    · exact absurd h (by decide)
    · exact ne_append_of_not_isPrefixOf
        "parsing time \"notatime\" as \"2006-01-02T15:04:05Z07:00\": cannot parse \"notatime\" as \"2006\""
        "body contains incorrect JSON type for field "
        (plainQuote f) (by decide) (by decide) h
    · exact ne_append_of_not_isPrefixOf
        "parsing time \"notatime\" as \"2006-01-02T15:04:05Z07:00\": cannot parse \"notatime\" as \"2006\""
        "body contains incorrect JSON type (at character "
        (toString o ++ ")") (by decide) (by decide) (by simpa [String.append_assoc] using h)
    · exact absurd h (by decide)
    · exact ne_append_of_not_isPrefixOf
        "parsing time \"notatime\" as \"2006-01-02T15:04:05Z07:00\": cannot parse \"notatime\" as \"2006\""
        "body contains unknown key " n (by decide) (by decide) h
    · exact ne_append_of_not_isPrefixOf
        "parsing time \"notatime\" as \"2006-01-02T15:04:05Z07:00\": cannot parse \"notatime\" as \"2006\""
        "body must not be larger than "
        (toString l ++ " bytes") (by decide) (by decide) (by simpa [String.append_assoc] using h)
    · exact absurd h (by decide)
  · unfold isDiagnostic
    simp only [GoError.errorString.injEq]
    rintro (⟨o, h⟩ | h | ⟨f, h⟩ | ⟨o, h⟩ | h | ⟨n, h⟩ | ⟨l, h⟩ | h)
    · exact ne_append_of_not_isPrefixOf "Time.UnmarshalJSON: input is not a JSON string"
        "body contains badly-formed JSON (at character "
        (toString o ++ ")") (by decide) (by decide) (by simpa [String.append_assoc] using h)
    · exact absurd h (by decide)
    · exact ne_append_of_not_isPrefixOf "Time.UnmarshalJSON: input is not a JSON string"
        "body contains incorrect JSON type for field "
        (plainQuote f) (by decide) (by decide) h
    · exact ne_append_of_not_isPrefixOf "Time.UnmarshalJSON: input is not a JSON string"
        "body contains incorrect JSON type (at character "
        (toString o ++ ")") (by decide) (by decide) (by simpa [String.append_assoc] using h)
    · exact absurd h (by decide)
    · exact ne_append_of_not_isPrefixOf "Time.UnmarshalJSON: input is not a JSON string"
        "body contains unknown key " n (by decide) (by decide) h
    · exact ne_append_of_not_isPrefixOf "Time.UnmarshalJSON: input is not a JSON string"
        "body must not be larger than "
        (toString l ++ " bytes") (by decide) (by decide) (by simpa [String.append_assoc] using h)
    · exact absurd h (by decide)

/-- Every call of `readJSON` ends in one of four ways: it panics with the error of the
first `Decode`, which then holds a `json.InvalidUnmarshalError`; it returns `nil`; it
returns one of the seven diagnostics; or the error of the first `Decode` fits no case of
the switch and the `default` case returns it as it is. An error that is a
`json.InvalidUnmarshalError` always makes it panic. -/
theorem readJSON_outcomes {σ : Type} (quote : String → String) (newDecoder : Int → σ)
    (decodeDst decodeEmpty : σ → Option GoError × σ) :
    ((∃ err dec1, decodeDst (newDecoder 1048576) = (some err, dec1) ∧
        asInvalidUnmarshalError err = true ∧
        readJSON quote newDecoder decodeDst decodeEmpty = Outcome.panicked err) ∨
      readJSON quote newDecoder decodeDst decodeEmpty = Outcome.returned none ∨
      (∃ e, readJSON quote newDecoder decodeDst decodeEmpty = Outcome.returned (some e) ∧
        isDiagnostic quote e) ∨
      (∃ err dec1, decodeDst (newDecoder 1048576) = (some err, dec1) ∧
        asSyntaxError err = none ∧ isErrUnexpectedEOF err = false ∧
        asUnmarshalTypeError err = none ∧ isEOF err = false ∧
        stringsHasPrefix err.Error "json: unknown field " = false ∧
        asMaxBytesError err = none ∧ asInvalidUnmarshalError err = false ∧
        readJSON quote newDecoder decodeDst decodeEmpty = Outcome.returned (some err))) ∧
    (∀ (text : String) (dec1 : σ),
      decodeDst (newDecoder 1048576) = (some (GoError.InvalidUnmarshalError text), dec1) →
      readJSON quote newDecoder decodeDst decodeEmpty
        = Outcome.panicked (GoError.InvalidUnmarshalError text)) := by
  constructor
  · rcases h : decodeDst (newDecoder 1048576) with ⟨_ | err, dec1⟩
    · rcases h2 : decodeEmpty dec1 with ⟨_ | e2, dec2⟩
      · refine Or.inr (Or.inr (Or.inl
          ⟨GoError.errorString "body must contain a single JSON value", ?_, ?_⟩))
        · simp [readJSON, h, h2]
        · simp [isDiagnostic]
      · cases he : isEOF e2
        · refine Or.inr (Or.inr (Or.inl
            ⟨GoError.errorString "body must contain a single JSON value", ?_, ?_⟩))
          · simp [readJSON, h, h2, he]
          · simp [isDiagnostic]
        · exact Or.inr (Or.inl (by simp [readJSON, h, h2, he]))
    · rcases hs : asSyntaxError err with _ | off
      swap
      · refine Or.inr (Or.inr (Or.inl ⟨GoError.errorString
          ("body contains badly-formed JSON (at character " ++ toString off ++ ")"), ?_, ?_⟩))
        · simp [readJSON, h, hs]
        · exact Or.inl ⟨off, rfl⟩
      cases hu : isErrUnexpectedEOF err
      swap
      · refine Or.inr (Or.inr (Or.inl
          ⟨GoError.errorString "body contains badly-formed JSON", ?_, ?_⟩))
        · simp [readJSON, h, hs, hu]
        · exact Or.inr (Or.inl rfl)
      rcases ht : asUnmarshalTypeError err with _ | ⟨field, off⟩
      swap
      · by_cases hf : field = ""
        · refine Or.inr (Or.inr (Or.inl ⟨GoError.errorString
            ("body contains incorrect JSON type (at character " ++ toString off ++ ")"),
            ?_, ?_⟩))
          · simp [readJSON, h, hs, hu, ht, hf]
          · exact Or.inr (Or.inr (Or.inr (Or.inl ⟨off, rfl⟩)))
        · refine Or.inr (Or.inr (Or.inl ⟨GoError.errorString
            ("body contains incorrect JSON type for field " ++ quote field), ?_, ?_⟩))
          · simp [readJSON, h, hs, hu, ht, hf]
          · exact Or.inr (Or.inr (Or.inl ⟨field, rfl⟩))
      cases he : isEOF err
      swap
      · refine Or.inr (Or.inr (Or.inl
          ⟨GoError.errorString "body must not be empty", ?_, ?_⟩))
        · simp [readJSON, h, hs, hu, ht, he]
        · exact Or.inr (Or.inr (Or.inr (Or.inr (Or.inl rfl))))
      cases hp : stringsHasPrefix err.Error "json: unknown field "
      swap
      · refine Or.inr (Or.inr (Or.inl ⟨GoError.errorString
          ("body contains unknown key "
            ++ stringsTrimPrefix err.Error "json: unknown field "), ?_, ?_⟩))
        · simp [readJSON, h, hs, hu, ht, he, hp]
        · exact Or.inr (Or.inr (Or.inr (Or.inr (Or.inr (Or.inl ⟨_, rfl⟩)))))
      rcases hm : asMaxBytesError err with _ | limit
      swap
      · refine Or.inr (Or.inr (Or.inl ⟨GoError.errorString
          ("body must not be larger than " ++ toString limit ++ " bytes"), ?_, ?_⟩))
        · simp [readJSON, h, hs, hu, ht, he, hp, hm]
        · exact Or.inr (Or.inr (Or.inr (Or.inr (Or.inr (Or.inr (Or.inl ⟨limit, rfl⟩))))))
      cases hi : asInvalidUnmarshalError err
      · exact Or.inr (Or.inr (Or.inr ⟨err, dec1, rfl, hs, hu, ht, he, hp, hm, hi,
          by simp [readJSON, h, hs, hu, ht, he, hp, hm, hi]⟩))
      · exact Or.inl ⟨err, dec1, rfl, hi, by simp [readJSON, h, hs, hu, ht, he, hp, hm, hi]⟩
  · intro text dec1 h
    have hp : stringsHasPrefix (GoError.InvalidUnmarshalError text).Error
        "json: unknown field " = false := by
      show stringsHasPrefix ("json: Unmarshal(" ++ text ++ ")") "json: unknown field " = false
      unfold stringsHasPrefix
      rw [String.append_assoc, String.data_append]
      rfl
    simp [readJSON, h, asSyntaxError, isErrUnexpectedEOF, asUnmarshalTypeError, isEOF,
      asMaxBytesError, asInvalidUnmarshalError, hp]

theorem atoi_examples :
    atoi "42" = some 42 ∧ atoi "-7" = some (-7) ∧ atoi "+5" = some 5 ∧ atoi "007" = some 7 ∧
    atoi "" = none ∧ atoi "-" = none ∧ atoi "abc" = none ∧ atoi "1_000" = none ∧
    atoi " 1" = none ∧ atoi "1.5" = none ∧ atoi "0x10" = none ∧
    atoi "9223372036854775807" = some 9223372036854775807 ∧
    atoi "9223372036854775808" = none ∧
    atoi "-9223372036854775808" = some (-9223372036854775808) ∧
    atoi "-9223372036854775809" = none := by
  decide

/-- C9. `readInt` always returns. When the key is absent or its first value is empty it
returns the default and leaves the validator alone; when the value parses as a base-10
integer it returns that integer and leaves the validator alone; otherwise it returns the
default and makes exactly one `AddError` call, with the key and the message "must be an
integer value". -/
theorem readInt_spec {V : Type} (AddError : V → String → String → V) (qs : Values)
    (key : String) (defaultValue : Int) (v : V) :
    ((qs key = [] ∨ (qs key).head? = some "") →
      readInt AddError qs key defaultValue v = (defaultValue, v)) ∧
    (∀ i : Int, atoi (qs.Get key) = some i →
      readInt AddError qs key defaultValue v = (i, v)) ∧
    (qs.Get key ≠ "" → atoi (qs.Get key) = none →
      readInt AddError qs key defaultValue v
        = (defaultValue, AddError v key "must be an integer value")) := by
  refine ⟨?_, ?_, ?_⟩
  · intro h
    have hg : qs.Get key = "" := by
      unfold Values.Get
      rcases h with h | h
      · rw [h]
      · cases hq : qs key with
        | nil => rfl
        | cons x xs =>
          rw [hq] at h
          simp at h
          simp [h]
    simp [readInt, hg]
  · intro i hi
    have hne : qs.Get key ≠ "" := by
      intro h0
      rw [h0] at hi
      have hnone : atoi "" = none := by decide
      rw [hnone] at hi
      exact Option.noConfusion hi
    simp [readInt, hne, hi]
  · intro hne hi
    simp [readInt, hne, hi]

/-- C9 on the query strings `page=abc`, `page=12`, `page=` and one without `page`, with
the validator that collects the messages. -/
theorem readInt_spec_witness :
    readInt Validator.AddError (fun k => if k = "page" then ["abc"] else []) "page" 1 ⟨[]⟩
      = (1, ⟨[("page", "must be an integer value")]⟩) ∧
    readInt Validator.AddError (fun k => if k = "page" then ["12"] else []) "page" 1 ⟨[]⟩
      = (12, ⟨[]⟩) ∧
    readInt Validator.AddError (fun k => if k = "page" then [""] else []) "page" 1 ⟨[]⟩
      = (1, ⟨[]⟩) ∧
    readInt Validator.AddError (fun _ => []) "page" 1 ⟨[]⟩ = (1, ⟨[]⟩) :=
  ⟨(readInt_spec Validator.AddError (fun k => if k = "page" then ["abc"] else []) "page" 1
      ⟨[]⟩).2.2 (by decide) (by decide),
   (readInt_spec Validator.AddError (fun k => if k = "page" then ["12"] else []) "page" 1
      ⟨[]⟩).2.1 12 (by decide),
   (readInt_spec Validator.AddError (fun k => if k = "page" then [""] else []) "page" 1
      ⟨[]⟩).1 (Or.inr (by decide)),
   (readInt_spec Validator.AddError (fun _ => []) "page" 1 ⟨[]⟩).1 (Or.inl rfl)⟩

theorem Header.lookup_filter_ne (h : Header) (key k : String) (hk : k ≠ key) :
    Header.lookup (h.filter (fun e => e.1 ≠ key)) k = Header.lookup h k := by
  induction h with
  | nil => rfl
  | cons e rest ih =>
    obtain ⟨a, b⟩ := e
    by_cases ha : a = key
    · have hak : ¬ a = k := fun h => hk (h.symm.trans ha)
      rw [List.filter_cons_of_neg (by simp [ha])]
      simp only [Header.lookup]
      rw [if_neg hak]
      exact ih
    · rw [List.filter_cons_of_pos (by simp [ha])]
      simp only [Header.lookup]
      rw [ih]

theorem Header.lookup_assign (h : Header) (key k : String) (value : List String) :
    Header.lookup (h.assign key value) k
      = if key = k then some value else Header.lookup h k := by
  by_cases hk : key = k
  · simp [Header.assign, Header.lookup, hk]
  · have hk2 : k ≠ key := fun h => hk h.symm
    simp only [Header.assign, Header.lookup, if_neg hk]
    exact Header.lookup_filter_ne h key k hk2

/-- The header map after the `range` loop of `writeJSON`. -/
theorem foldl_assign_header (headers : Header) (w : ResponseWriter) :
    (headers.foldl (fun (w : ResponseWriter) (entry : String × List String) =>
        { w with header := w.header.assign entry.1 entry.2 }) w)
      = { w with header :=
            (headers.foldl (fun h entry => Header.assign h entry.1 entry.2) w.header) } := by
  induction headers generalizing w with
  | nil => rfl
  | cons e rest ih => simp [List.foldl, ih]

theorem lookup_foldl_assign_of_not_mem (headers h : Header) (k : String)
    (hk : k ∉ headers.map Prod.fst) :
    Header.lookup (headers.foldl (fun h entry => Header.assign h entry.1 entry.2) h) k
      = Header.lookup h k := by
  induction headers generalizing h with
  | nil => rfl
  | cons e rest ih =>
    simp only [List.map_cons, List.mem_cons, not_or] at hk
    simp only [List.foldl]
    rw [ih _ hk.2, Header.lookup_assign, if_neg (fun h => hk.1 h.symm)]

theorem lookup_foldl_assign_of_mem (headers h : Header) (k : String) (v : List String)
    (hnodup : (headers.map Prod.fst).Nodup) (hm : (k, v) ∈ headers) :
    Header.lookup (headers.foldl (fun h entry => Header.assign h entry.1 entry.2) h) k
      = some v := by
  induction headers generalizing h with
  | nil => simp at hm
  | cons e rest ih =>
    simp only [List.map_cons, List.nodup_cons] at hnodup
    simp only [List.foldl]
    rcases List.mem_cons.mp hm with he | hr
    · subst he
      rw [lookup_foldl_assign_of_not_mem _ _ _ hnodup.1, Header.lookup_assign, if_pos rfl]
    · exact ih _ hnodup.2 hr

theorem mem_foldl_assign (headers h : Header) (e : String × List String)
    (he : e ∈ headers.foldl (fun h entry => Header.assign h entry.1 entry.2) h) :
    e.1 ∈ headers.map Prod.fst ∨ e.1 ∈ h.map Prod.fst := by
  induction headers generalizing h with
  | nil => exact Or.inr (List.mem_map_of_mem Prod.fst he)
  | cons x rest ih =>
    simp only [List.foldl] at he
    rcases ih _ he with h1 | h1
    · exact Or.inl (List.mem_cons_of_mem _ h1)
    · simp only [Header.assign, List.map_cons, List.mem_cons] at h1
      rcases h1 with h1 | h1
      · exact Or.inl (by simp [h1])
      · right
        obtain ⟨y, hy, hy2⟩ := List.mem_map.mp h1
        rw [← hy2]
        exact List.mem_map_of_mem Prod.fst (List.mem_filter.mp hy).1

theorem ResponseWriter.WriteHeader_header (w w3 : ResponseWriter) (code : Int)
    (h : w.WriteHeader code = Except.ok w3) : w3.header = w.header := by
  unfold ResponseWriter.WriteHeader at h
  cases hs : w.status with
  | some c =>
    rw [hs] at h
    injection h with h
    rw [← h]
  | none =>
    rw [hs] at h
    simp only at h
    split at h
    · exact Except.noConfusion h
    · injection h with h
      rw [← h]

theorem ResponseWriter.Write_header (w : ResponseWriter) (b : String) :
    (w.Write b).header = w.header := by
  unfold ResponseWriter.Write
  cases w.status <;> rfl

theorem ResponseWriter.WriteHeader_ok (w : ResponseWriter) (code : Int)
    (h : (100 ≤ code ∧ code ≤ 999) ∨ w.status ≠ none) :
    ∃ w3, w.WriteHeader code = Except.ok w3 := by
  unfold ResponseWriter.WriteHeader
  cases hs : w.status with
  | some c => exact ⟨w, rfl⟩
  | none =>
    rcases h with h | h
    · have hc : ¬ (code < 100 ∨ 999 < code) := by omega
      simp only [if_neg hc]
      exact ⟨_, rfl⟩
    · exact absurd hs h

theorem ResponseWriter.WriteHeader_panics (w : ResponseWriter) (code : Int)
    (hs : w.status = none) (hc : code < 100 ∨ 999 < code) :
    w.WriteHeader code = Except.error ("invalid WriteHeader code " ++ toString code) := by
  unfold ResponseWriter.WriteHeader
  rw [hs]
  simp only [if_pos hc]

theorem writeJSON_header (w : ResponseWriter) (status : Int) (js : String)
    (headers : Header) :
    (writeJSON w status (Except.ok js) headers).2.header
      = ("Content-Type", ["application/json"]) ::
          (headers.foldl (fun h entry => Header.assign h entry.1 entry.2) w.header).filter
            (fun e => e.1 ≠ "Content-Type") := by
  have hc : canonicalMIMEHeaderKey "Content-Type" = "Content-Type" := by decide
  unfold writeJSON
  simp only
  rw [foldl_assign_header]
  split
  · simp only [Header.Set, hc]
    rfl
  · rename_i w3 h3
    simp only [ResponseWriter.Write_header]
    rw [ResponseWriter.WriteHeader_header _ w3 status h3]
    simp only [Header.Set, hc]
    rfl

/-- C10, refuted: a caller map with the entry `content-type: text/plain`, a spelling of
the Content-Type key, leaves that entry in the response next to `Content-Type:
application/json`, so the response carries two values for the field. -/
theorem writeJSON_keeps_other_spelling :
    canonicalMIMEHeaderKey "content-type" = "Content-Type" ∧
    (writeJSON ResponseWriter.fresh 200 (Except.ok "{}")
        [("content-type", ["text/plain"])]).1 = Ending.returned none ∧
    (writeJSON ResponseWriter.fresh 200 (Except.ok "{}")
        [("content-type", ["text/plain"])]).2.header
      = [("Content-Type", ["application/json"]), ("content-type", ["text/plain"])] ∧
    (writeJSON ResponseWriter.fresh 200 (Except.ok "{}")
        [("content-type", ["text/plain"])]).2.header.fieldValues "Content-Type"
      = ["application/json", "text/plain"] ∧
    (writeJSON ResponseWriter.fresh 200 (Except.ok "{}")
        [("content-type", ["text/plain"])]).2.header.fieldValues "Content-Type"
      ≠ ["application/json"] := by
  decide

/-- C10, amended. When the payload serialises, `writeJSON` returns `nil` if the status
code is one `WriteHeader` takes (100..999, or any code once the header was written) and
panics in `WriteHeader` otherwise; either way, by then the entry of the response header
under the key `Content-Type` is exactly `application/json`, whatever the caller put under
that key; every entry of the caller under another key, other spellings of Content-Type
included, is in the response header with exactly the values of the caller; and when
neither the map of the caller nor the response header from before has Content-Type under
another spelling, `application/json` is the only Content-Type value of the response. -/
theorem writeJSON_headers (w : ResponseWriter) (status : Int) (js : String)
    (headers : Header) (hnodup : (headers.map Prod.fst).Nodup) :
    (((100 ≤ status ∧ status ≤ 999) ∨ w.status ≠ none) →
      (writeJSON w status (Except.ok js) headers).1 = Ending.returned none) ∧
    (w.status = none → (status < 100 ∨ 999 < status) →
      (writeJSON w status (Except.ok js) headers).1
        = Ending.panicked ("invalid WriteHeader code " ++ toString status)) ∧
    (writeJSON w status (Except.ok js) headers).2.header.lookup "Content-Type"
      = some ["application/json"] ∧
    (∀ (k : String) (v : List String), (k, v) ∈ headers → k ≠ "Content-Type" →
      (writeJSON w status (Except.ok js) headers).2.header.lookup k = some v) ∧
    ((∀ k : String, k ∈ headers.map Prod.fst ∨ k ∈ w.header.map Prod.fst →
        canonicalMIMEHeaderKey k = "Content-Type" → k = "Content-Type") →
      (writeJSON w status (Except.ok js) headers).2.header.fieldValues "Content-Type"
        = ["application/json"]) := by
  have hc : canonicalMIMEHeaderKey "Content-Type" = "Content-Type" := by decide
  refine ⟨?_, ?_, ?_, ?_, ?_⟩
  · intro hst
    unfold writeJSON
    simp only
    rw [foldl_assign_header]
    obtain ⟨w3, h3⟩ := ResponseWriter.WriteHeader_ok
      { header := Header.Set
          (headers.foldl (fun h entry => Header.assign h entry.1 entry.2) w.header)
          "Content-Type" "application/json",
        status := w.status, body := w.body } status hst
    simp only [h3]
  · intro hs hst
    unfold writeJSON
    simp only
    rw [foldl_assign_header]
    have h3 := ResponseWriter.WriteHeader_panics
      { header := Header.Set
          (headers.foldl (fun h entry => Header.assign h entry.1 entry.2) w.header)
          "Content-Type" "application/json",
        status := w.status, body := w.body } status hs hst
    simp only [h3]
  · rw [writeJSON_header]
    simp [Header.lookup]
  · intro k v hm hk
    rw [writeJSON_header]
    simp only [Header.lookup]
    rw [if_neg (fun h => hk h.symm), Header.lookup_filter_ne _ _ _ hk]
    exact lookup_foldl_assign_of_mem headers w.header k v hnodup hm
  · intro hsp
    rw [writeJSON_header]
    unfold Header.fieldValues
    rw [List.filter_cons_of_pos (by simp), List.filter_filter]
    have hnil : List.filter
        (fun a => decide (canonicalMIMEHeaderKey a.1 = canonicalMIMEHeaderKey "Content-Type")
          && decide (a.1 ≠ "Content-Type"))
        (headers.foldl (fun h entry => Header.assign h entry.1 entry.2) w.header) = [] := by
      rw [List.filter_eq_nil_iff]
      intro e he
      have hk := hsp e.1 (mem_foldl_assign headers w.header e he)
      rw [hc]
      by_cases h1 : canonicalMIMEHeaderKey e.1 = "Content-Type"
      · simp [hk h1]
      · simp [h1]
    rw [hnil]
    rfl

/-- C10 on a caller map that holds `Content-Type: text/plain` and `X-Request-Id: 7`, with
the status 201, and with the status 0, where `WriteHeader` panics. -/
theorem writeJSON_headers_witness :
    (writeJSON ResponseWriter.fresh 201 (Except.ok "{}")
        [("Content-Type", ["text/plain"]), ("X-Request-Id", ["7"])]).1
      = Ending.returned none ∧
    (writeJSON ResponseWriter.fresh 201 (Except.ok "{}")
        [("Content-Type", ["text/plain"]), ("X-Request-Id", ["7"])]).2.header.lookup
          "Content-Type" = some ["application/json"] ∧
    (writeJSON ResponseWriter.fresh 201 (Except.ok "{}")
        [("Content-Type", ["text/plain"]), ("X-Request-Id", ["7"])]).2.header.lookup
          "X-Request-Id" = some ["7"] ∧
    (writeJSON ResponseWriter.fresh 201 (Except.ok "{}")
        [("Content-Type", ["text/plain"]), ("X-Request-Id", ["7"])]).2.header.fieldValues
          "Content-Type" = ["application/json"] ∧
    (writeJSON ResponseWriter.fresh 0 (Except.ok "{}")
        [("Content-Type", ["text/plain"]), ("X-Request-Id", ["7"])]).1
      = Ending.panicked "invalid WriteHeader code 0" ∧
    (writeJSON ResponseWriter.fresh 0 (Except.ok "{}")
        [("Content-Type", ["text/plain"]), ("X-Request-Id", ["7"])]).2.header.lookup
          "Content-Type" = some ["application/json"] :=
  ⟨(writeJSON_headers ResponseWriter.fresh 201 "{}"
      [("Content-Type", ["text/plain"]), ("X-Request-Id", ["7"])] (by decide)).1
      (Or.inl (by decide)),
   (writeJSON_headers ResponseWriter.fresh 201 "{}"
      [("Content-Type", ["text/plain"]), ("X-Request-Id", ["7"])] (by decide)).2.2.1,
   (writeJSON_headers ResponseWriter.fresh 201 "{}"
      [("Content-Type", ["text/plain"]), ("X-Request-Id", ["7"])] (by decide)).2.2.2.1
      "X-Request-Id" ["7"] (by decide) (by decide),
   (writeJSON_headers ResponseWriter.fresh 201 "{}"
      [("Content-Type", ["text/plain"]), ("X-Request-Id", ["7"])] (by decide)).2.2.2.2
      (by
        intro k hk hcan
        simp [ResponseWriter.fresh] at hk
        rcases hk with rfl | rfl
        · rfl
        · exact absurd hcan (by decide)),
   (writeJSON_headers ResponseWriter.fresh 0 "{}"
      [("Content-Type", ["text/plain"]), ("X-Request-Id", ["7"])] (by decide)).2.1
      rfl (Or.inl (by decide)),
   (writeJSON_headers ResponseWriter.fresh 0 "{}"
      [("Content-Type", ["text/plain"]), ("X-Request-Id", ["7"])] (by decide)).2.2.1⟩

theorem background_ok (app : application) (fn : TaskOutcome) (h : 0 ≤ app.wg) :
    background app fn
      = Except.ok ⟨app.wg + 1, app.logger, app.goroutines ++ [fn]⟩ := by
  have h1 : ¬ app.wg + 1 < 0 := by omega
  simp [background, wgAdd, h1]

theorem goroutine_returns (app : application) (h : 0 < app.wg) :
    goroutine app TaskOutcome.returns = (⟨app.wg - 1, app.logger, app.goroutines⟩, none) := by
  have h1 : ¬ app.wg + -1 < 0 := by omega
  simp [goroutine, wgAdd, h1]
  rfl

theorem goroutine_panics (app : application) (v : String) (h : 0 < app.wg) :
    goroutine app (TaskOutcome.panics v)
      = (⟨app.wg - 1, app.logger ++ [v], app.goroutines⟩, none) := by
  have h1 : ¬ app.wg + -1 < 0 := by omega
  simp [goroutine, wgAdd, h1]
  rfl

/-- One action keeps the process alive and the counter equal to the number of running
goroutines. -/
theorem step_invariant (p : Process) (a : Action)
    (h : p.crashed = none ∧ p.app.wg = p.app.goroutines.length) :
    (step p a).crashed = none ∧ (step p a).app.wg = (step p a).app.goroutines.length := by
  obtain ⟨hc, hw⟩ := h
  cases a with
  | submit fn =>
    have h0 : 0 ≤ p.app.wg := by omega
    simp [step, hc, background_ok p.app fn h0, hw]
  | finish i =>
    simp only [step, hc]
    cases hg : p.app.goroutines.get? i with
    | none => exact ⟨hc, hw⟩
    | some fn =>
      have hi : i < p.app.goroutines.length := by
        rw [List.get?_eq_some] at hg
        exact hg.1
      have hpos : 0 < p.app.wg := by omega
      have hlen : (p.app.goroutines.eraseIdx i).length = p.app.goroutines.length - 1 :=
        List.length_eraseIdx_of_lt hi
      cases fn with
      | returns =>
        simp only
        rw [goroutine_returns ⟨p.app.wg, p.app.logger, p.app.goroutines.eraseIdx i⟩ hpos]
        simp only [hlen, true_and]
        omega
      | panics v =>
        simp only
        rw [goroutine_panics ⟨p.app.wg, p.app.logger, p.app.goroutines.eraseIdx i⟩ v hpos]
        simp only [hlen, true_and]
        omega

theorem run_invariant (p : Process) (actions : List Action)
    (h : p.crashed = none ∧ p.app.wg = p.app.goroutines.length) :
    (run p actions).crashed = none ∧
      (run p actions).app.wg = (run p actions).app.goroutines.length := by
  induction actions generalizing p with
  | nil => exact h
  | cons a rest ih => exact ih (step p a) (step_invariant p a h)

/-- C8. `background` adds exactly one to the counter and then launches one goroutine for
`fn`; that goroutine, whether `fn` returns or panics, takes exactly one from the counter
when it ends and lets no panic out; a panic of `fn` is logged, a return logs nothing.
So in every run of the process from its start, the goroutines ending in any order, no
panic ends the process, the counter equals the number of goroutines still running, and
once every submitted task has ended a wait on the counter returns. -/
theorem background_accounting :
    (∀ (app : application) (fn : TaskOutcome), 0 ≤ app.wg →
      background app fn = Except.ok ⟨app.wg + 1, app.logger, app.goroutines ++ [fn]⟩) ∧
    (∀ (app : application) (fn : TaskOutcome), 0 < app.wg →
      (goroutine app fn).1.wg = app.wg - 1 ∧ (goroutine app fn).2 = none ∧
      (goroutine app fn).1.goroutines = app.goroutines) ∧
    (∀ (app : application) (v : String), 0 < app.wg →
      (goroutine app (TaskOutcome.panics v)).1.logger = app.logger ++ [v]) ∧
    (∀ app : application, 0 < app.wg →
      (goroutine app TaskOutcome.returns).1.logger = app.logger) ∧
    (∀ actions : List Action,
      (run Process.start actions).crashed = none ∧
      (run Process.start actions).app.wg = (run Process.start actions).app.goroutines.length ∧
      ((run Process.start actions).app.goroutines = [] →
        waitReturns (run Process.start actions).app)) := by
  refine ⟨background_ok, ?_, ?_, ?_, ?_⟩
  · intro app fn h
    cases fn with
    | returns => rw [goroutine_returns app h]; exact ⟨rfl, rfl, rfl⟩
    | panics v => rw [goroutine_panics app v h]; exact ⟨rfl, rfl, rfl⟩
  · intro app v h
    rw [goroutine_panics app v h]
  · intro app h
    rw [goroutine_returns app h]
  · intro actions
    have hinv := run_invariant Process.start actions ⟨rfl, rfl⟩
    refine ⟨hinv.1, hinv.2, ?_⟩
    intro hnil
    unfold waitReturns
    rw [hinv.2, hnil]
    rfl

/-- C8 on a run with three tasks, one of which panics with "boom", the goroutines ending
out of order: the process lives, the panic is logged, and the wait returns. -/
theorem background_accounting_witness :
    (run Process.start
      [Action.submit (TaskOutcome.panics "boom"), Action.submit TaskOutcome.returns,
       Action.finish 1, Action.submit TaskOutcome.returns, Action.finish 0,
       Action.finish 0]) = ⟨⟨0, ["boom"], []⟩, none⟩ ∧
    waitReturns (run Process.start
      [Action.submit (TaskOutcome.panics "boom"), Action.submit TaskOutcome.returns,
       Action.finish 1, Action.submit TaskOutcome.returns, Action.finish 0,
       Action.finish 0]).app :=
  ⟨by decide,
   (background_accounting.2.2.2.2
      [Action.submit (TaskOutcome.panics "boom"), Action.submit TaskOutcome.returns,
       Action.finish 1, Action.submit TaskOutcome.returns, Action.finish 0,
       Action.finish 0]).2.2 (by decide)⟩

end GoBackend
